import Mathlib

/-!
Verification development for the saleverse-server dialogue gateway
(final revision of roomie-local-server/index.js).

The JavaScript source is shallowly embedded: JS numbers are modelled as
rationals plus explicit non-finite values (NaN, Infinity), JS regular
expressions are modelled by an executable backtracking matcher over an
abstract syntax tree that mirrors each literal pattern of the source, and
the WebSocket message handler is modelled as a pure state-transition
function over an explicit per-connection session state.
-/

set_option maxRecDepth 40000

namespace Saleverse

/-! ## JS value model -/

/-- Model of a JavaScript number: a finite value (exact rational) or one of
the non-finite values.  Float rounding is not modelled; on every input
exercised below the JS double computations are exact. -/
inductive JSNum where
  | fin (q : ℚ)
  | nan
  | inf
  | ninf
deriving DecidableEq, Repr

/-- Model of an arbitrary JavaScript value as classified by the typeof
checks in the source: a number, a string, or anything else. -/
inductive JSVal where
  | num (n : JSNum)
  | str (s : String)
  | other
deriving DecidableEq, Repr

/-- JS truthiness of a number (0 and NaN are falsy). -/
def jsTruthy : JSNum → Bool
  | .fin q => decide (q ≠ 0)
  | .nan => false
  | .inf => true
  | .ninf => true

/-- Math.max(0, x) on the JS number model (NaN propagates). -/
def jsMax0 : JSNum → JSNum
  | .fin q => .fin (max 0 q)
  | .nan => .nan
  | .inf => .inf
  | .ninf => .fin 0

/-- The JS comparison a > b (false whenever either side is NaN). -/
def jsGt : JSNum → JSNum → Bool
  | .fin a, .fin b => decide (b < a)
  | .fin _, .ninf => true
  | .inf, .fin _ => true
  | .inf, .ninf => true
  | _, _ => false

/-! ## Character and string helpers -/

/-- Whitespace as matched by the \s class of JS regular expressions
(restricted to the ASCII whitespace actually reachable here). -/
def isSpaceChar (c : Char) : Bool :=
  c = ' ' || c = '\t' || c = '\n' || c = '\r' || c = '\x0b' || c = '\x0c'

/-- Word characters for the \b boundary assertion of JS regular
expressions: ASCII letters, digits, underscore. -/
def isWordChar (c : Char) : Bool :=
  c.isAlpha || c.isDigit || c = '_'

/-- JS String.prototype.includes: substring containment. -/
def containsSub (hay needle : String) : Bool :=
  (List.range (hay.data.length + 1)).any
    (fun i => needle.data.isPrefixOf (hay.data.drop i))

/-- JS String.prototype.toLowerCase restricted to ASCII (all inputs
exercised are ASCII apart from currency symbols, which have no case). -/
def jsLower (s : String) : String := ⟨s.data.map Char.toLower⟩

/-- JS String.prototype.trim. -/
def jsTrim (s : String) : String :=
  ⟨((s.data.dropWhile isSpaceChar).reverse.dropWhile isSpaceChar).reverse⟩

/-- JS String.prototype.endsWith for a single-character suffix. -/
def endsWithChar (s : String) (c : Char) : Bool :=
  s.data.getLast? = some c

/-- Replace every occurrence of a single character (a one-character
global regex replace). -/
def replaceChar (s : String) (a b : Char) : String :=
  ⟨s.data.map (fun c => if c = a then b else c)⟩

/-- Delete every occurrence of a single character (global replace by the
empty string). -/
def deleteChar (s : String) (a : Char) : String :=
  ⟨s.data.filter (fun c => ¬ c = a)⟩

/-! ## Regular-expression engine

An executable model of the fragment of JS regular expressions used by the
source: literals, character classes, alternation (leftmost-biased), greedy
star/plus/option, capture groups, word boundaries and anchors.  The
matcher enumerates candidate matches in the backtracking priority order
prescribed by ECMAScript, so taking the head of the enumeration yields
exactly the JS match. -/

inductive RE where
  | eps
  | anyc
  | chr (c : Char)
  | digit
  | spacec
  | oneOf (cs : List Char)
  | notOneOf (cs : List Char)
  | bnd
  | bol
  | eol
  | cat (a b : RE)
  | alt (a b : RE)
  | star (a : RE)
  | opt (a : RE)
  | grp (i : Nat) (a : RE)
deriving Repr

/-- Literal string pattern. -/
def RE.lit (s : String) : RE :=
  (s.data.map RE.chr).foldr RE.cat RE.eps

/-- Alternation of a list of patterns, leftmost-first. -/
def RE.alts : List RE → RE
  | [] => RE.eps
  | [r] => r
  | r :: rs => RE.alt r (RE.alts rs)

/-- Greedy plus. -/
def RE.plus (a : RE) : RE := RE.cat a (RE.star a)

/-- Captures: most recent binding first. -/
abbrev Caps := List (Nat × String)

def capGet (cp : Caps) (k : Nat) : String :=
  match cp.find? (fun p => p.1 = k) with
  | some p => p.2
  | none => ""

/-- Iterate a greedy star body: longer matches enumerated first, and (as
in ECMAScript) an iteration of the body that consumes nothing terminates
the repetition. -/
def starIter (m : Nat → Caps → List (Nat × Caps)) : Nat → Nat → Caps → List (Nat × Caps)
  | 0, i, cp => [(i, cp)]
  | fuel + 1, i, cp =>
      (((m i cp).filter (fun r => i < r.1)).flatMap
        (fun r => starIter m fuel r.1 r.2)) ++ [(i, cp)]

/-- Substring of the input between two positions. -/
def seg (inp : List Char) (i j : Nat) : String :=
  ⟨(inp.drop i).take (j - i)⟩

/-- All ways the pattern can match starting at position i, as pairs of end
position and captures, in backtracking priority order. -/
def mtch (inp : List Char) : RE → Nat → Caps → List (Nat × Caps)
  | .eps, i, cp => [(i, cp)]
  | .anyc, i, cp =>
      match inp.drop i with
      | c :: _ => if c = '\n' || c = '\r' then [] else [(i + 1, cp)]
      | [] => []
  | .chr a, i, cp =>
      match inp.drop i with
      | c :: _ => if c = a then [(i + 1, cp)] else []
      | [] => []
  | .digit, i, cp =>
      match inp.drop i with
      | c :: _ => if c.isDigit then [(i + 1, cp)] else []
      | [] => []
  | .spacec, i, cp =>
      match inp.drop i with
      | c :: _ => if isSpaceChar c then [(i + 1, cp)] else []
      | [] => []
  | .oneOf cs, i, cp =>
      match inp.drop i with
      | c :: _ => if cs.contains c then [(i + 1, cp)] else []
      | [] => []
  | .notOneOf cs, i, cp =>
      match inp.drop i with
      | c :: _ => if cs.contains c then [] else [(i + 1, cp)]
      | [] => []
  | .bnd, i, cp =>
      let before := match inp.drop (i - 1) with
        | c :: _ => if i = 0 then false else isWordChar c
        | [] => false
      let after := match inp.drop i with
        | c :: _ => isWordChar c
        | [] => false
      if before ≠ after then [(i, cp)] else []
  | .bol, i, cp => if i = 0 then [(i, cp)] else []
  | .eol, i, cp => if i = inp.length then [(i, cp)] else []
  | .cat a b, i, cp =>
      (mtch inp a i cp).flatMap (fun r => mtch inp b r.1 r.2)
  | .alt a b, i, cp => mtch inp a i cp ++ mtch inp b i cp
  | .star a, i, cp => starIter (fun j c => mtch inp a j c) (inp.length + 1) i cp
  | .opt a, i, cp => mtch inp a i cp ++ [(i, cp)]
  | .grp k a, i, cp =>
      (mtch inp a i cp).map (fun r => (r.1, (k, seg inp i r.1) :: r.2))

/-- First match attempt at a fixed position (the JS backtracking result). -/
def matchAt (inp : List Char) (re : RE) (i : Nat) : Option (Nat × Caps) :=
  (mtch inp re i []).head?

/-- Leftmost match search (fuel-structural so that evaluation reduces in
the kernel). -/
def searchFromAux (inp : List Char) (re : RE) : Nat → Nat → Option (Nat × Nat × Caps)
  | 0, _ => none
  | fuel + 1, i =>
      match matchAt inp re i with
      | some (j, cp) => some (i, j, cp)
      | none => if i < inp.length then searchFromAux inp re fuel (i + 1) else none

/-- Leftmost match search from a position, as regexp.exec does: earliest
start wins, ties broken by backtracking priority. -/
def searchFrom (inp : List Char) (re : RE) (i : Nat) : Option (Nat × Nat × Caps) :=
  searchFromAux inp re (inp.length + 1 - i) i

/-- Leftmost match of a pattern in a string. -/
def reSearch (re : RE) (s : String) : Option (Nat × Nat × Caps) :=
  searchFrom s.data re 0

/-- JS regexp.test. -/
def reTest (re : RE) (s : String) : Bool :=
  (reSearch re s).isSome

/-- Global regex replace by a fixed replacement string (advancing one
character past an empty match, as JS does). -/
def replaceAllFrom (inp : List Char) (re : RE) (repl : List Char) : Nat → Nat → List Char
  | 0, i => inp.drop i
  | fuel + 1, i =>
      match searchFrom inp re i with
      | none => inp.drop i
      | some (a, b, _) =>
          ((inp.drop i).take (a - i)) ++ repl ++
            (if a < b then replaceAllFrom inp re repl fuel b
             else match inp.drop b with
               | c :: _ => c :: replaceAllFrom inp re repl fuel (b + 1)
               | [] => [])

def reReplaceAll (re : RE) (repl : String) (s : String) : String :=
  ⟨replaceAllFrom s.data re repl.data (s.data.length + 1) 0⟩

/-- Replace only the first match (a non-global regex replace). -/
def reReplaceFirst (re : RE) (repl : String) (s : String) : String :=
  match reSearch re s with
  | none => s
  | some (a, b, _) =>
      ⟨(s.data.take a) ++ repl.data ++ (s.data.drop b)⟩

/-! ## parseFloat model

JS parseFloat: skip leading whitespace, then parse the longest prefix of
the form sign digits [. digits] [exponent]; NaN (here: none) when no
digits are found.  Values are exact rationals; double rounding and
overflow to Infinity are not modelled (all inputs exercised are exact). -/

def digitsToNat (ds : List Char) : Nat :=
  ds.foldl (fun a c => a * 10 + (c.toNat - 48)) 0

/-- Integer power of ten as a rational. -/
def pow10 (e : Int) : ℚ :=
  if 0 ≤ e then ((10 : ℚ) ^ e.toNat) else 1 / ((10 : ℚ) ^ (-e).toNat)

def parseFloatQ (s : String) : Option ℚ :=
  let cs0 := s.data.dropWhile isSpaceChar
  let sgn : ℚ := match cs0 with
    | '-' :: _ => -1
    | _ => 1
  let cs := match cs0 with
    | '+' :: r => r
    | '-' :: r => r
    | r => r
  let ip := cs.takeWhile Char.isDigit
  let cs1 := cs.drop ip.length
  let hasDot : Bool := match cs1 with
    | '.' :: _ => true
    | _ => false
  let fp := if hasDot then (cs1.drop 1).takeWhile Char.isDigit else []
  if ip.isEmpty && fp.isEmpty then none
  else
    let rest := if hasDot then (cs1.drop 1).drop fp.length else cs1
    let exp : Int :=
      match rest with
      | 'e' :: r | 'E' :: r =>
          let es : Int := match r with
            | '-' :: _ => -1
            | _ => 1
          let r2 := match r with
            | '+' :: t => t
            | '-' :: t => t
            | t => t
          let ed := r2.takeWhile Char.isDigit
          if ed.isEmpty then 0 else es * (digitsToNat ed : Int)
      | _ => 0
    let mant : ℚ := (digitsToNat ip : ℚ) + (digitsToNat fp : ℚ) / ((10 : ℚ) ^ fp.length)
    some (sgn * mant * pow10 exp)

/-! ## Currency stripping and loose number parsing (toNumberLoose) -/

/-- The currency-word/symbol alternation of the source, stripped globally
from budget text before number extraction. -/
def currencyRE : RE :=
  RE.alts [RE.lit "gel", RE.lit "usd", RE.lit "eur", RE.lit "gbp", RE.lit "try",
    RE.lit "aud", RE.lit "cad", RE.lit "inr", RE.lit "jpy", RE.lit "cny",
    RE.lit "rmb", RE.lit "yuan", RE.lit "yen", RE.lit "tl", RE.lit "lira",
    RE.cat (RE.lit "dollar") (RE.opt (RE.chr 's')),
    RE.cat (RE.lit "buck") (RE.opt (RE.chr 's')),
    RE.lit "quid",
    RE.chr '₾', RE.chr '$', RE.chr '€', RE.chr '£', RE.chr '¥', RE.chr '₹',
    RE.chr '₺', RE.chr '₽', RE.chr '₩']

/-- Collapse of \s+ runs used with a one-space replacement. -/
def wsPlusRE : RE := RE.plus RE.spacec

/-- The string-cleaning pipeline of toNumberLoose: trim, lowercase,
strip currency marks, drop commas, drop whitespace. -/
def cleanNumText (x : String) : String :=
  reReplaceAll wsPlusRE "" (deleteChar (reReplaceAll currencyRE "" (jsLower (jsTrim x))) ',')

/-- toNumberLoose of the source: coerce an arbitrary value into a number;
a number passes through unchanged, a string is stripped of currency
marks, commas and whitespace, with a trailing k scaling by 1000, and any
other value (or an unparseable string) yields 0. -/
def toNumberLoose : JSVal → JSNum
  | .num n => n
  | .str x =>
      let s3 := cleanNumText x
      let p : Option ℚ :=
        if endsWithChar s3 'k' then (parseFloatQ s3).map (fun q => q * 1000)
        else parseFloatQ s3
      .fin (p.getD 0)
  | .other => .fin 0

/-! ## Budget extraction (extractBudget) -/

/-- Budget extraction result: 0 means unbounded on that side. -/
structure BudgetR where
  min : ℚ
  max : ℚ
deriving DecidableEq, Repr

/-- The toN helper local to extractBudget: parse a captured token,
scaling a trailing k by 1000; 0 when unparseable. -/
def toN (s : String) : ℚ :=
  let p : Option ℚ :=
    if endsWithChar s 'k' then (parseFloatQ s).map (fun q => q * 1000)
    else parseFloatQ s
  p.getD 0

/-- The num capture of the source, ([0-9]*\.?[0-9]+k?), bound to capture
index k. -/
def numRE (k : Nat) : RE :=
  RE.grp k (RE.cat (RE.star RE.digit)
    (RE.cat (RE.opt (RE.chr '.'))
      (RE.cat (RE.plus RE.digit) (RE.opt (RE.chr 'k')))))

/-- The money cue alternation (budget|price|cost|amount|spend|limit|cap). -/
def moneyRE : RE :=
  RE.alts [RE.lit "budget", RE.lit "price", RE.lit "cost", RE.lit "amount",
    RE.lit "spend", RE.lit "limit", RE.lit "cap"]

/-- The optIs fragment (?:is|=|:)\s* of the source. -/
def optIsRE : RE :=
  RE.cat (RE.alts [RE.lit "is", RE.chr '=', RE.chr ':']) (RE.star RE.spacec)

/-- Helper: a literal with \s* standing for internal whitespace gaps. -/
def litGap (a b : String) : RE :=
  RE.cat (RE.lit a) (RE.cat (RE.star RE.spacec) (RE.lit b))

/-- Range pattern 1: (?:between|from)\s+NUM\s*(?:to|and|-)\s*NUM. -/
def rangeRE1 : RE :=
  RE.cat (RE.alt (RE.lit "between") (RE.lit "from"))
    (RE.cat (RE.plus RE.spacec)
      (RE.cat (numRE 1)
        (RE.cat (RE.star RE.spacec)
          (RE.cat (RE.alts [RE.lit "to", RE.lit "and", RE.chr '-'])
            (RE.cat (RE.star RE.spacec) (numRE 2))))))

/-- Range pattern 2: NUM\s*[-–]\s*NUM. -/
def rangeRE2 : RE :=
  RE.cat (numRE 1)
    (RE.cat (RE.star RE.spacec)
      (RE.cat (RE.oneOf ['-', '–'])
        (RE.cat (RE.star RE.spacec) (numRE 2))))

/-- The tail (?:optIs)?(?:of\s*)?NUM. -/
def optIsTailRE : RE :=
  RE.cat (RE.opt optIsRE)
    (RE.cat (RE.opt (RE.cat (RE.lit "of") (RE.star RE.spacec))) (numRE 1))

/-- The optional tail (?:money\s*)?(?:optIs)?(?:of\s*)?NUM shared by the
min and max cue patterns. -/
def cueTailRE : RE :=
  RE.cat (RE.opt (RE.cat moneyRE (RE.star RE.spacec))) optIsTailRE

/-- Min-before-number pattern: min(imum)?, at least, >=, more than, no
less than, then the shared tail. -/
def minRE : RE :=
  RE.cat
    (RE.alts [RE.cat (RE.lit "min") (RE.opt (RE.lit "imum")),
      litGap "at" "least", RE.lit ">=", litGap "more" "than",
      RE.cat (RE.lit "no") (RE.cat (RE.star RE.spacec) (litGap "less" "than"))])
    (RE.cat (RE.star RE.spacec) cueTailRE)

/-- The cap(?:ped)?(?:\s*at)? cue fragment. -/
def capCueRE : RE :=
  RE.cat (RE.lit "cap")
    (RE.cat (RE.opt (RE.lit "ped"))
      (RE.opt (RE.cat (RE.star RE.spacec) (RE.lit "at"))))

/-- Max-before-number pattern: max(imum)?, under, below, up to, upto, <=,
less than, no more than, at most, cap(ped)( at)?, then the shared tail. -/
def maxRE : RE :=
  RE.cat
    (RE.alts [RE.cat (RE.lit "max") (RE.opt (RE.lit "imum")),
      RE.lit "under", RE.lit "below", litGap "up" "to", RE.lit "upto",
      RE.lit "<=", litGap "less" "than",
      RE.cat (RE.lit "no") (RE.cat (RE.star RE.spacec) (litGap "more" "than")),
      litGap "at" "most", capCueRE])
    (RE.cat (RE.star RE.spacec) cueTailRE)

/-- Reversed min pattern: NUM\s*(?:min(imum)?|at least|or more|+|and up). -/
def revMinRE : RE :=
  RE.cat (numRE 1)
    (RE.cat (RE.star RE.spacec)
      (RE.alts [RE.cat (RE.lit "min") (RE.opt (RE.lit "imum")),
        litGap "at" "least", litGap "or" "more", RE.chr '+', litGap "and" "up"]))

/-- Reversed max pattern: NUM\s*(?:max(imum)?|or less|up to|at most|cap...). -/
def revMaxRE : RE :=
  RE.cat (numRE 1)
    (RE.cat (RE.star RE.spacec)
      (RE.alts [RE.cat (RE.lit "max") (RE.opt (RE.lit "imum")),
        litGap "or" "less", litGap "up" "to", litGap "at" "most", capCueRE]))

/-- Bare money-cue pattern: (?:money)\s*(?:optIs)?(?:of\s*)?NUM. -/
def bareMoneyRE : RE :=
  RE.cat moneyRE (RE.cat (RE.star RE.spacec) optIsTailRE)

/-- Approximation pattern: (?:around|about|~)\s*NUM. -/
def aroundRE : RE :=
  RE.cat (RE.alts [RE.lit "around", RE.lit "about", RE.chr '~'])
    (RE.cat (RE.star RE.spacec) (numRE 1))

/-- Collapse digit-grouping whitespace, fuel-structural. -/
def dgcAux : Nat → List Char → List Char
  | 0, l => l
  | _, [] => []
  | fuel + 1, c :: rest =>
      if c.isDigit then
        let sp := rest.takeWhile isSpaceChar
        let rest2 := rest.drop sp.length
        if sp.isEmpty then c :: dgcAux fuel rest
        else match rest2 with
          | d :: _ =>
              if d.isDigit then c :: dgcAux fuel rest2
              else c :: dgcAux fuel rest
          | [] => c :: dgcAux fuel rest
      else c :: dgcAux fuel rest

/-- Collapse digit-grouping whitespace: the (\d)\s+(?=\d) global replace
of the source (spaces between digits removed). -/
def digitGroupCollapse (l : List Char) : List Char := dgcAux (l.length + 1) l

/-- The text normalization prefix of extractBudget: lowercase, long
dashes to "-", currency and commas stripped, whitespace collapsed,
trimmed, digit-grouping spaces removed. -/
def budgetNormalize (text : String) : String :=
  let raw := replaceChar (replaceChar (jsLower text) '—' '-') '–' '-'
  let t0 := reReplaceAll currencyRE "" raw
  let t1 := deleteChar t0 ','
  let t2 := reReplaceAll wsPlusRE " " t1
  let t3 := jsTrim t2
  ⟨digitGroupCollapse t3.data⟩

/-- Result of a two-capture pattern as a budget pair. -/
def pairResult (r : Nat × Nat × Caps) : BudgetR :=
  ⟨toN (capGet r.2.2 1), toN (capGet r.2.2 2)⟩

/-- extractBudget of the source: the patterns are tried in strict order
(ranges, min cues, max cues, reversed cues, bare money cue, around),
returning the first hit, or none. -/
def extractBudget (text : String) : Option BudgetR :=
  let t := budgetNormalize text
  match reSearch rangeRE1 t with
  | some r => some (pairResult r)
  | none =>
  match reSearch rangeRE2 t with
  | some r => some (pairResult r)
  | none =>
  match reSearch minRE t with
  | some r => some ⟨toN (capGet r.2.2 1), 0⟩
  | none =>
  match reSearch maxRE t with
  | some r => some ⟨0, toN (capGet r.2.2 1)⟩
  | none =>
  match reSearch revMinRE t with
  | some r => some ⟨toN (capGet r.2.2 1), 0⟩
  | none =>
  match reSearch revMaxRE t with
  | some r => some ⟨0, toN (capGet r.2.2 1)⟩
  | none =>
  match reSearch bareMoneyRE t with
  | some r => some ⟨0, toN (capGet r.2.2 1)⟩
  | none =>
  match reSearch aroundRE t with
  | some r => some ⟨0, toN (capGet r.2.2 1)⟩
  | none => none

/-! ## Keyword heuristics -/

/-- The ordered category synonym table of the source (object key
insertion order). -/
def CATEGORY_MAP : List (String × List String) :=
  [("sofa", ["couch", "settee", "sectional", "loveseat"]),
   ("rug", ["carpet"]),
   ("armchair", ["accent chair", "reading chair"]),
   ("coffee-table", ["coffee table", "center table"]),
   ("dining-table", ["dining table"]),
   ("wardrobe", ["closet"]),
   ("lamp", ["floor lamp", "table lamp", "light"]),
   ("bed", ["queen bed", "king bed", "double bed"]),
   ("shelving", ["shelf", "bookcase"]),
   ("nightstand", ["bedside table"]),
   ("sideboard", ["buffet"]),
   ("tv-stand", ["media console", "tv unit"]),
   ("chair", ["dining chair", "desk chair", "office chair"]),
   ("desk", ["work desk", "office desk"])]

/-- First table entry whose canonical name or a synonym occurs in the
text wins; empty when none match. -/
def inferCategory (txt : String) : String :=
  match CATEGORY_MAP.find?
      (fun e => containsSub txt e.1 || e.2.any (fun syn => containsSub txt syn)) with
  | some e => e.1
  | none => ""

def INTENT_WORDS : List String :=
  ["suggest", "recommend", "pick", "choose", "find", "show me", "find me",
   "replace", "any sofa", "any rug", "show a", "show me a", "show me some",
   "which would you recommend", "i need a", "i need an"]

def inferIntent (txt : String) : Bool :=
  INTENT_WORDS.any (fun w => containsSub txt w)

/-- The info/comparison/logistics veto pattern of the source (applied
case-insensitively, modelled by lowering the input). -/
def brandInfoRE : RE :=
  RE.cat RE.bnd
    (RE.cat
      (RE.alts [RE.lit "tell me about", RE.lit "what sets", RE.lit "what makes",
        RE.cat (RE.lit "how") (RE.cat (RE.star RE.anyc) (RE.lit "different")),
        RE.lit "compare", RE.lit "comparison", RE.lit "pros", RE.lit "cons",
        RE.lit "policy", RE.lit "return", RE.lit "warranty", RE.lit "delivery",
        RE.lit "shipping", litGap "lead" "time", RE.lit "availability"])
      RE.bnd)

def brandInfoLike (t : String) : Bool := reTest brandInfoRE (jsLower t)

/-- Two-or-three digit token of the NxN size hint. -/
def dig23RE : RE := RE.cat RE.digit (RE.cat RE.digit (RE.opt RE.digit))

/-- The loose size-hint pattern of the source. -/
def sizeHintsRE : RE :=
  RE.cat RE.bnd
    (RE.cat
      (RE.alts [RE.lit "width", RE.lit "length", RE.lit "depth", RE.lit "height",
        RE.lit "cm", RE.lit "mm",
        RE.cat dig23RE
          (RE.cat (RE.star RE.spacec)
            (RE.cat (RE.chr 'x') (RE.cat (RE.star RE.spacec) dig23RE)))])
      RE.bnd)

def hasSizeHints (t : String) : Bool := reTest sizeHintsRE (jsLower t)

def MATERIAL_WORDS : List String :=
  ["material", "fabric", "leather", "linen", "velvet", "wool", "cotton",
   "wood", "oak", "walnut", "ash", "veneer", "metal", "brass", "chrome",
   "steel", "iron", "aluminum", "glass", "marble", "stone", "rattan",
   "wicker", "finish", "matte", "satin", "gloss", "brushed", "oiled",
   "stain", "lacquer", "color", "colour", "black", "white", "gray", "grey",
   "beige", "cream", "sand", "tan", "charcoal", "navy", "green", "brown"]

def REPLACE_STRONG : List String :=
  ["replace", "swap", "alternative", "another", "something else",
   "different model", "other option"]

def REPLACE_SOFT : List String :=
  ["cheaper", "less expensive", "budget", "pricier", "premium", "smaller",
   "bigger", "narrower", "wider", "shorter", "taller", "compact"]

def containsAny (hay : String) (ws : List String) : Bool :=
  ws.any (fun w => containsSub hay w)

def isMaterialIntent (lc : String) : Bool := containsAny lc MATERIAL_WORDS

def isReplaceIntent (lc : String) : Bool :=
  containsAny lc REPLACE_STRONG ||
    ((containsSub lc " this" || containsSub lc " it ") && containsAny lc REPLACE_SOFT)

/-! ## Flat-payload rendering -/

/-- sanitizeField of the source: ';' and '|' inside a value become '/'. -/
def sanitizeField (s : String) : String :=
  ⟨s.data.map (fun c => if c = ';' || c = '|' then '/' else c)⟩

/-- Decimal digits of a Nat (own renderer, kept provably ';'-free). -/
def natStrAux : Nat → Nat → List Char
  | 0, _ => []
  | fuel + 1, n =>
      if n < 10 then [Char.ofNat (48 + n)]
      else natStrAux fuel (n / 10) ++ [Char.ofNat (48 + n % 10)]

def natStr (n : Nat) : String := ⟨natStrAux (n + 1) n⟩

def intStr (i : Int) : String :=
  if i < 0 then "-" ++ natStr i.natAbs else natStr i.natAbs

/-- Smallest k, up to the fuel, with d dividing 10^k. -/
def findDecExp (d : Nat) : Nat → Nat → Option Nat
  | _, 0 => none
  | k, fuel + 1 => if (10 ^ k) % d = 0 then some k else findDecExp d (k + 1) fuel

/-- Template-literal rendering of a finite JS number.  Exact for
integers and finite decimals (every value reachable from parseFloat);
exponential notation for huge magnitudes is not modelled. -/
def ratStr (q : ℚ) : String :=
  if q.den = 1 then intStr q.num
  else
    match findDecExp q.den 0 64 with
    | some k =>
        let a := q.num.natAbs * (10 ^ k) / q.den
        let ds := (natStr a).data
        let ds2 := if ds.length ≤ k then (List.replicate (k + 1 - ds.length) '0') ++ ds else ds
        let whole := ds2.take (ds2.length - k)
        let frac := ds2.drop (ds2.length - k)
        (if q.num < 0 then "-" else "") ++ (⟨whole⟩ : String) ++ "." ++ (⟨frac⟩ : String)
    | none => intStr q.num ++ "/" ++ natStr q.den

/-- Template-literal rendering of a JS number. -/
def jsNumStr : JSNum → String
  | .fin q => ratStr q
  | .nan => "NaN"
  | .inf => "Infinity"
  | .ninf => "-Infinity"

/-! ## SPEC normalization (makeSpecFlat) -/

/-- The style_tags field of a backend object: an array, a single truthy
non-array value, or missing/falsy. -/
inductive StyleTags where
  | arr (ts : List String)
  | single (s : String)
  | missing
deriving DecidableEq, Repr

instance : Inhabited StyleTags := ⟨.missing⟩

/-- Legacy nested budget object. -/
structure RawBudget where
  min : Option JSVal := none
  max : Option JSVal := none
deriving DecidableEq, Repr

/-- A backend product object after JSON parsing, as inspected by the
typeof checks of the source: absent fields are none.  An empty object
(or a parse failure coerced to an empty object) is the default value. -/
structure RawSpec where
  suggest : Option Bool := none
  category : Option String := none
  style_tags : StyleTags := .missing
  budget_min : Option JSVal := none
  budget_max : Option JSVal := none
  budget : Option RawBudget := none
  max_depth_cm : Option JSNum := none
  max_length_cm : Option JSNum := none
  max_width_cm : Option JSNum := none
  max_height_cm : Option JSNum := none
deriving DecidableEq, Repr

instance : Inhabited RawSpec := ⟨{}⟩

/-- JS a || b on optional numbers (first truthy wins). -/
def truthyOr (a b : Option JSNum) : Option JSNum :=
  match a with
  | some n => if jsTruthy n then some n else b
  | none => b

/-- Canonical product intent produced by the SPEC normalization. -/
structure ProductIntent where
  suggest : Bool
  category : String
  styleArr : List String
  budget_min : JSNum
  budget_max : JSNum
  max_len : JSNum
  max_w : JSNum
  max_h : JSNum
deriving DecidableEq, Repr

/-- The style-array coercion shared by both builders. -/
def styleArrOf : StyleTags → List String
  | .arr ts => ts
  | .single s => if s = "" then [] else [s]
  | .missing => []

/-- The pure normalization core of makeSpecFlat (everything after the
backend call): heuristic backups, the suggest gate, budget backfill and
sanitization, dimension mapping. -/
def normalizeSpec (user : String) (spec : RawSpec) : ProductIntent :=
  let lower := jsLower user
  let sug0 := spec.suggest.getD false
  let cat0 := spec.category.getD ""
  let catGuess := inferCategory lower
  let intentGuess := inferIntent lower
  let budgetGuess := (extractBudget user).isSome
  let sizeGuess := hasSizeHints user
  let brandInfo := brandInfoLike user
  let cat1 := if cat0 = "" && !(catGuess = "") then catGuess else cat0
  let hasConstraint := budgetGuess || sizeGuess
  let hasCategory := !(cat1 = "") || !(catGuess = "")
  let sug1 :=
    if brandInfo then false
    else if !sug0 && (intentGuess || (hasConstraint && hasCategory)) then true
    else sug0
  let styleArr := styleArrOf spec.style_tags
  let bmin0 := match spec.budget_min with
    | some v => toNumberLoose v
    | none => .fin 0
  let bmax0 := match spec.budget_max with
    | some v => toNumberLoose v
    | none => .fin 0
  let ext := extractBudget user
  let bmin1 := match ext with
    | some e => if !jsTruthy bmin0 && !(e.min = 0) then .fin e.min else bmin0
    | none => bmin0
  let bmax1 := match ext with
    | some e => if !jsTruthy bmax0 && !(e.max = 0) then .fin e.max else bmax0
    | none => bmax0
  let bmin2 := match spec.budget with
    | some b =>
        if (b.min.isSome || b.max.isSome) && !jsTruthy bmin1 && b.min.isSome
        then toNumberLoose (b.min.getD .other) else bmin1
    | none => bmin1
  let bmax2 := match spec.budget with
    | some b =>
        if (b.min.isSome || b.max.isSome) && !jsTruthy bmax1 && b.max.isSome
        then toNumberLoose (b.max.getD .other) else bmax1
    | none => bmax1
  let bmin3 := jsMax0 bmin2
  let bmax3 := jsMax0 bmax2
  let swap := jsTruthy bmin3 && jsTruthy bmax3 && jsGt bmin3 bmax3
  let bmin4 := if swap then bmax3 else bmin3
  let bmax4 := if swap then bmin3 else bmax3
  let max_len := (truthyOr spec.max_depth_cm (truthyOr spec.max_length_cm none)).getD (.fin 0)
  let max_w := (truthyOr spec.max_width_cm none).getD (.fin 0)
  let max_h := (truthyOr spec.max_height_cm none).getD (.fin 0)
  { suggest := sug1, category := cat1, styleArr := styleArr,
    budget_min := bmin4, budget_max := bmax4,
    max_len := max_len, max_w := max_w, max_h := max_h }

/-- The flat SPEC payload exactly as concatenated by the source.  Note
that the source applies sanitizeField to the already |-joined style
array. -/
def specFlat (p : ProductIntent) : String :=
  "suggest=" ++ (if p.suggest then "1" else "0") ++ ";" ++
  "category=" ++ sanitizeField p.category ++ ";" ++
  "style=" ++ sanitizeField (String.intercalate "|" p.styleArr) ++ ";" ++
  "budget_min=" ++ jsNumStr p.budget_min ++ ";" ++
  "budget_max=" ++ jsNumStr p.budget_max ++ ";" ++
  "max_len=" ++ jsNumStr p.max_len ++ ";" ++
  "max_w=" ++ jsNumStr p.max_w ++ ";" ++
  "max_h=" ++ jsNumStr p.max_h ++ ";" ++
  "choice_id=;choice_name="

/-- makeSpecFlat with the backend call abstracted to its parsed result
(an empty RawSpec models both an empty and a malformed response). -/
def makeSpecFlatPure (user : String) (spec : RawSpec) : String :=
  specFlat (normalizeSpec user spec)

/-! ## MATSPEC normalization (makeMatSpecFlat) -/

def SLOT_CANON : List (String × List String) :=
  [("fabric", ["fabric", "cloth", "textile", "upholstery"]),
   ("leather", ["leather"]),
   ("linen", ["linen"]),
   ("velvet", ["velvet"]),
   ("wool", ["wool"]),
   ("cotton", ["cotton"]),
   ("wood", ["wood", "timber"]),
   ("oak", ["oak"]),
   ("walnut", ["walnut"]),
   ("ash", ["ash"]),
   ("metal", ["metal", "steel", "iron", "aluminum", "aluminium"]),
   ("brass", ["brass", "gold", "golden"]),
   ("chrome", ["chrome", "silver", "chromed"]),
   ("glass", ["glass"]),
   ("stone", ["stone", "granite", "slate", "travertine"]),
   ("marble", ["marble"]),
   ("ceramic", ["ceramic", "tile"]),
   ("rattan", ["rattan", "wicker", "cane"])]

def COLOR_CANON : List (String × List String) :=
  [("black", ["black", "jet", "ink"]),
   ("white", ["white", "ivory"]),
   ("gray", ["gray", "grey", "graphite", "charcoal", "dark gray", "dark-grey", "darkgrey"]),
   ("beige", ["beige", "cream", "sand", "tan"]),
   ("brown", ["brown", "chocolate", "walnut"]),
   ("green", ["green", "forest", "olive", "sage", "mint"]),
   ("blue", ["blue", "navy", "cobalt", "royal"]),
   ("red", ["red", "burgundy", "crimson"]),
   ("brass", ["brass", "gold", "golden"]),
   ("chrome", ["chrome", "silver", "steel"])]

def FINISH_CANON : List (String × List String) :=
  [("matte", ["matte", "matt"]),
   ("satin", ["satin", "eggshell", "egg-shell", "semi-matte"]),
   ("gloss", ["gloss", "glossy", "high gloss", "polished"]),
   ("brushed", ["brushed"]),
   ("oiled", ["oiled", "oil finish"]),
   ("stained", ["stain", "stained"]),
   ("lacquered", ["lacquer", "lacquered"]),
   ("powdercoated", ["powder", "powder-coated", "powdercoated"]),
   ("anodized", ["anodized", "anodised"]),
   ("plated", ["plated", "electroplated"])]

/-- First table entry one of whose synonyms occurs in the text wins. -/
def findCanon (lc : String) (table : List (String × List String)) : String :=
  match table.find? (fun e => e.2.any (fun syn => containsSub lc syn)) with
  | some e => e.1
  | none => ""

/-- The broad material/finish/color keyword pattern of the source. -/
def materialHintsRE : RE :=
  RE.cat RE.bnd
    (RE.cat
      (RE.alts ([ "material", "fabric", "textile", "leather", "linen",
        "velvet", "wool", "cotton", "wood", "oak", "walnut", "ash", "veneer",
        "metal", "brass", "chrome", "steel", "iron", "aluminum", "glass",
        "marble", "stone", "ceramic", "rattan", "wicker", "finish", "color",
        "colour", "stain", "paint", "lacquer", "matte", "satin", "gloss",
        "brushed", "oiled", "powder", "anodized", "plated"].map RE.lit))
      RE.bnd)

/-- The leading bracketed control tag prefix. -/
def tagHeadRE : RE :=
  RE.cat RE.bol
    (RE.cat (RE.chr '[')
      (RE.cat (RE.plus (RE.notOneOf [']']))
        (RE.cat (RE.chr ']') (RE.star RE.spacec))))

/-- stripLeadingTag of the source (a non-global replace). -/
def stripLeadingTag (s : String) : String := reReplaceFirst tagHeadRE "" s

/-- A backend material object after JSON parsing; absent fields are
none. -/
structure RawMatSpec where
  apply : Option Bool := none
  slot : Option String := none
  color : Option String := none
  finish : Option String := none
  style_tags : StyleTags := .missing
deriving DecidableEq, Repr

instance : Inhabited RawMatSpec := ⟨{}⟩

/-- Canonical material intent produced by the MATSPEC normalization. -/
structure MatIntent where
  apply : Bool
  slot : String
  color : String
  finish : String
  style : String
deriving DecidableEq, Repr

/-- The pure normalization core of makeMatSpecFlat: backend values first,
synonym-table fallbacks, and the apply OR of all signals. -/
def normalizeMat (user : String) (spec : RawMatSpec) : MatIntent :=
  let lc := jsLower (stripLeadingTag user)
  let slot0 := jsTrim (jsLower (spec.slot.getD ""))
  let color0 := jsTrim (jsLower (spec.color.getD ""))
  let finish0 := jsTrim (jsLower (spec.finish.getD ""))
  let slot := if slot0 = "" then findCanon lc SLOT_CANON else slot0
  let color := if color0 = "" then findCanon lc COLOR_CANON else color0
  let finish := if finish0 = "" then findCanon lc FINISH_CANON else finish0
  let styleArr := styleArrOf spec.style_tags
  let style := String.intercalate "|" (styleArr.map (fun s => sanitizeField (jsLower s)))
  let apply := spec.apply.getD false || reTest materialHintsRE lc ||
    !(slot = "") || !(color = "") || !(finish = "")
  { apply := apply, slot := slot, color := color, finish := finish, style := style }

/-- The flat MATSPEC payload exactly as concatenated by the source. -/
def matFlat (m : MatIntent) : String :=
  "apply=" ++ (if m.apply then "1" else "0") ++ ";" ++
  "slot=" ++ sanitizeField m.slot ++ ";" ++
  "color=" ++ sanitizeField m.color ++ ";" ++
  "finish=" ++ sanitizeField m.finish ++ ";" ++
  "style=" ++ m.style

/-- makeMatSpecFlat with the backend call abstracted to its parsed
result. -/
def makeMatSpecFlatPure (user : String) (spec : RawMatSpec) : String :=
  matFlat (normalizeMat user spec)

/-! ## Conversation history -/

inductive Role where
  | user
  | model
deriving DecidableEq, Repr

/-- One history message (role plus text payload). -/
structure HMsg where
  role : Role
  text : String
deriving DecidableEq, Repr

/-- clampHistory of the source: shift the oldest message off the front
while the length exceeds maxPairs * 2 (default 4 pairs). -/
def clampHistory (hist : List HMsg) (maxPairs : Nat := 4) : List HMsg :=
  if h : maxPairs * 2 < hist.length then clampHistory hist.tail maxPairs else hist
termination_by hist.length
decreasing_by simp [List.length_tail]; omega

/-- The history update of one conversational turn: a user/model pair is
appended and the history clamped only when the turn produced non-empty
reply text. -/
def histStep (hist : List HMsg) (user full : String) : List HMsg :=
  if full = "" then hist
  else clampHistory (hist ++ [⟨Role.user, user⟩, ⟨Role.model, full⟩])

/-- The history reached after a list of turns, each a user text with the
reply text the turn produced (empty when the turn failed completely). -/
def runTurns (turns : List (String × String)) : List HMsg :=
  turns.foldl (fun h t => histStep h t.1 t.2) []

/-! ## Resilient streamed completion and the USER-turn handler -/

/-- An error thrown by the generation backend: a status-like code and a
message. -/
structure GenError where
  status : Nat := 0
  msg : String := ""
deriving DecidableEq, Repr

/-- isRetryable of the source. -/
def isRetryable (e : GenError) : Bool :=
  e.status = 429 || e.status = 500 || e.status = 502 || e.status = 503 ||
  e.status = 504 || containsSub (jsLower e.msg) "overload" ||
  containsSub (jsLower e.msg) "unavailable" || containsSub (jsLower e.msg) "temporar"

def MAX_RETRIES : Nat := 4

/-- The observable behavior of one streamed-completion call: the text
fragments produced in order, then either normal completion (none) or an
error thrown after the listed fragments. -/
structure StreamAttempt where
  frags : List String := []
  err : Option GenError := none

/-- The fragments of an attempt that are actually emitted (empty pieces
are skipped by the source). -/
def nonemptyFrags (a : StreamAttempt) : List String :=
  a.frags.filter (fun p => !p.isEmpty)

/-- State of the retry loop of the USER branch. -/
structure LoopSt where
  full : String := ""
  sent : List String := []
  gotAnyChunk : Bool := false
  lastErr : Option GenError := none
  calls : Nat := 0

/-- Emission of a stream's fragments: each non-empty piece is appended
to the accumulated text, sent as a chunk, and marks output as started. -/
def emitFrags : List String → LoopSt → LoopSt
  | [], st => st
  | p :: rest, st =>
      if p.isEmpty then emitFrags rest st
      else emitFrags rest
        { st with full := st.full ++ p, sent := st.sent ++ [p], gotAnyChunk := true }

/-- The retry loop of the USER branch: each iteration opens one stream,
emits its fragments, and on an error retries only when nothing has been
emitted yet, the retry bound is not reached, and the error is
retryable. -/
def chatLoop (beh : Nat → StreamAttempt) : Nat → Nat → LoopSt → LoopSt
  | _, 0, st => st
  | attempt, fuel + 1, st =>
      let a := beh attempt
      let st1 := emitFrags a.frags { st with calls := st.calls + 1 }
      match a.err with
      | none => { st1 with lastErr := none }
      | some e =>
          let st2 := { st1 with lastErr := some e }
          if st2.gotAnyChunk then st2
          else if attempt < MAX_RETRIES - 1 && isRetryable e then
            chatLoop beh (attempt + 1) fuel st2
          else st2

/-- Environment of one conversational turn: the behavior of each primary
streamed call, the behavior of the one fallback-model call, and the
parsed backend objects that an auto-dispatched SPEC/MATSPEC extraction
would receive. -/
structure TurnEnv where
  primary : Nat → StreamAttempt
  fallback : StreamAttempt := {}
  specObj : RawSpec := {}
  matObj : RawMatSpec := {}

/-- The loop result of a turn. -/
def chatRun (env : TurnEnv) : LoopSt :=
  chatLoop env.primary 0 MAX_RETRIES {}

/-- Fallback emission (the source's fallback loop updates only the
accumulated text and the sent chunks). -/
def emitFragsFB : List String → LoopSt → LoopSt
  | [], st => st
  | p :: rest, st =>
      if p.isEmpty then emitFragsFB rest st
      else emitFragsFB rest { st with full := st.full ++ p, sent := st.sent ++ [p] }

/-- Result of the streaming core of a turn (retry loop plus one-shot
fallback). -/
structure ChatCoreRes where
  full : String
  chunks : List String
  loopSt : LoopSt
  fellBack : Bool
  fbFailed : Bool

/-- The streaming core: the retry loop, then the one-shot fallback-model
stream when nothing was emitted and the last attempt failed; a fallback
failure produces the terminal service-unavailable condition. -/
def chatCore (env : TurnEnv) : ChatCoreRes :=
  let st := chatRun env
  if !st.gotAnyChunk && st.lastErr.isSome then
    let stF := emitFragsFB env.fallback.frags st
    { full := stF.full, chunks := stF.sent, loopSt := st,
      fellBack := true, fbFailed := env.fallback.err.isSome }
  else
    { full := st.full, chunks := st.sent, loopSt := st,
      fellBack := false, fbFailed := false }

/-! ## Session state machine and message handler -/

/-- Per-connection session state: conversation history, the busy flag
serializing chat streams, and the item-focus flag. -/
structure SessionSt where
  hist : List HMsg := []
  busy : Bool := false
  focus : Bool := false
deriving DecidableEq, Repr

/-- Messages sent to the client. -/
inductive OutMsg where
  | chunk (s : String)
  | final (s : String)
  | error (s : String)
  | specMsg (s : String)
  | matspecMsg (s : String)
deriving DecidableEq, Repr

/-- Result of handling one inbound USER message. -/
structure TurnOutcome where
  st : SessionSt
  out : List OutMsg
  genStarted : Bool
deriving Repr

/-- The silent control-tag test of the source (case-insensitive). -/
def silentTagRE : RE :=
  RE.cat RE.bol
    (RE.cat (RE.star RE.spacec)
      (RE.cat (RE.chr '[')
        (RE.cat (RE.alts [RE.lit "focus_clear", RE.lit "placed", RE.lit "replaced"])
          (RE.cat RE.bnd
            (RE.cat (RE.star (RE.notOneOf [']']))
              (RE.cat (RE.chr ']') (RE.cat (RE.star RE.spacec) RE.eol)))))))

def isSilentTag (trimmed : String) : Bool := reTest silentTagRE (jsLower trimmed)

/-- The item-focus tag test of the source (case-insensitive). -/
def itemFocusRE : RE :=
  RE.cat RE.bol (RE.cat (RE.chr '[') (RE.cat (RE.lit "item_focus") RE.bnd))

def isItemFocusTag (trimmed : String) : Bool := reTest itemFocusRE (jsLower trimmed)

/-- The tag-only test of the source (case-sensitive, no letters). -/
def tagOnlyRE : RE :=
  RE.cat RE.bol
    (RE.cat (RE.star RE.spacec)
      (RE.cat (RE.chr '[')
        (RE.cat (RE.plus (RE.notOneOf [']']))
          (RE.cat (RE.chr ']') (RE.cat (RE.star RE.spacec) RE.eol)))))

def isTagOnly (trimmed : String) : Bool := reTest tagOnlyRE trimmed

/-- The auto-dispatch block run after a turn while focused: a material
intent issues a MATSPEC extraction, else a replace intent issues a SPEC
extraction; skipped for tag-only messages. -/
def autoDispatch (env : TurnEnv) (focus : Bool) (trimmed lc user : String) : List OutMsg :=
  if focus && !isTagOnly trimmed then
    if isMaterialIntent lc then [.matspecMsg (makeMatSpecFlatPure user env.matObj)]
    else if isReplaceIntent lc then [.specMsg (makeSpecFlatPure user env.specObj)]
    else []
  else []

/-- Handler of one USER message (the payload after the kind marker), as
a pure transition on the session state.  finalSendErr injects a thrown
transport send at the terminal-reply point (the one statement of the
handler body that can raise out of the try block once streaming is
done); its exception reaches the outer catch, which resets the busy flag
and sends an ERROR reply. -/
def handleUserTurn (env : TurnEnv) (finalSendErr : Option String)
    (sess : SessionSt) (user : String) : TurnOutcome :=
  let trimmed := jsTrim user
  let lc := jsLower user
  if isSilentTag trimmed then
    { st := { sess with focus := false }, out := [], genStarted := false }
  else
    let sess1 := if isItemFocusTag trimmed then { sess with focus := true } else sess
    if sess1.busy then { st := sess1, out := [], genStarted := false }
    else
      let sessB := { sess1 with busy := true }
      let core := chatCore env
      let baseOut := core.chunks.map OutMsg.chunk ++
        (if core.fbFailed then [OutMsg.error "SERVICE_UNAVAILABLE"] else [])
      if core.full = "" then
        let outs := baseOut ++ autoDispatch env sessB.focus trimmed lc user
        { st := { sessB with busy := false }, out := outs, genStarted := true }
      else
        let hist2 := clampHistory (sessB.hist ++ [⟨Role.user, user⟩, ⟨Role.model, core.full⟩])
        match finalSendErr with
        | some m =>
            { st := { sessB with hist := hist2, busy := false },
              out := baseOut ++ [OutMsg.error m], genStarted := true }
        | none =>
            let outs := baseOut ++ [OutMsg.final core.full] ++
              autoDispatch env sessB.focus trimmed lc user
            { st := { sessB with hist := hist2, busy := false },
              out := outs, genStarted := true }

/-! ## Helper lemmas: string joins and fragment emission -/

theorem strFoldl_shift (l : List String) (a : String) :
    l.foldl (fun r t => r ++ t) a = a ++ l.foldl (fun r t => r ++ t) "" := by
  induction l generalizing a with
  | nil => simp [String.append_empty]
  | cons s t ih =>
      simp only [List.foldl_cons]
      rw [ih (a ++ s), ih ("" ++ s), String.empty_append, String.append_assoc]

theorem strJoin_cons (s : String) (l : List String) :
    String.join (s :: l) = s ++ String.join l := by
  show (s :: l).foldl (fun r t => r ++ t) "" = s ++ l.foldl (fun r t => r ++ t) ""
  simp only [List.foldl_cons]
  rw [strFoldl_shift l ("" ++ s), String.empty_append]

theorem strJoin_append (l₁ l₂ : List String) :
    String.join (l₁ ++ l₂) = String.join l₁ ++ String.join l₂ := by
  induction l₁ with
  | nil => simp [String.join, String.empty_append]
  | cons s t ih =>
      simp only [List.cons_append, strJoin_cons, ih, String.append_assoc]

theorem emitFrags_eq (fr : List String) (st : LoopSt) :
    emitFrags fr st =
      { full := st.full ++ String.join (fr.filter (fun p => !p.isEmpty)),
        sent := st.sent ++ fr.filter (fun p => !p.isEmpty),
        gotAnyChunk := st.gotAnyChunk || !(fr.filter (fun p => !p.isEmpty)).isEmpty,
        lastErr := st.lastErr, calls := st.calls } := by
  induction fr generalizing st with
  | nil => simp [emitFrags, String.append_empty, String.join]
  | cons p rest ih =>
      cases hp : p.isEmpty with
      | true => simp [emitFrags, hp, ih, List.filter_cons]
      | false =>
          simp only [emitFrags, hp, Bool.false_eq_true, if_false, ih,
            List.filter_cons, Bool.not_false, if_true, strJoin_cons]
          simp [String.append_assoc, List.append_assoc]

theorem emitFragsFB_eq (fr : List String) (st : LoopSt) :
    emitFragsFB fr st =
      { full := st.full ++ String.join (fr.filter (fun p => !p.isEmpty)),
        sent := st.sent ++ fr.filter (fun p => !p.isEmpty),
        gotAnyChunk := st.gotAnyChunk,
        lastErr := st.lastErr, calls := st.calls } := by
  induction fr generalizing st with
  | nil => simp [emitFragsFB, String.append_empty, String.join]
  | cons p rest ih =>
      cases hp : p.isEmpty with
      | true => simp [emitFragsFB, hp, ih, List.filter_cons]
      | false =>
          simp only [emitFragsFB, hp, Bool.false_eq_true, if_false, ih,
            List.filter_cons, Bool.not_false, if_true, strJoin_cons]
          simp [String.append_assoc, List.append_assoc]

/-! ## The retry-loop characterization -/

theorem range_one_flatMap {α : Type} (f : Nat → List α) :
    (List.range 1).flatMap f = f 0 := by
  show ([0] : List Nat).flatMap f = f 0
  simp

theorem chatLoop_spec (beh : Nat → StreamAttempt) :
    ∀ (fuel attempt : Nat) (st : LoopSt),
      st.gotAnyChunk = false → st.sent = [] → st.full = "" →
      attempt + fuel = MAX_RETRIES → 1 ≤ fuel →
      ∃ k, 1 ≤ k ∧ k ≤ fuel ∧
        (chatLoop beh attempt fuel st).calls = st.calls + k ∧
        (chatLoop beh attempt fuel st).sent =
          (List.range k).flatMap (fun j => nonemptyFrags (beh (attempt + j))) ∧
        (chatLoop beh attempt fuel st).full =
          String.join ((List.range k).flatMap (fun j => nonemptyFrags (beh (attempt + j)))) ∧
        (chatLoop beh attempt fuel st).gotAnyChunk =
          !((List.range k).flatMap (fun j => nonemptyFrags (beh (attempt + j)))).isEmpty ∧
        (chatLoop beh attempt fuel st).lastErr = (beh (attempt + k - 1)).err ∧
        (∀ j, j + 1 < k → nonemptyFrags (beh (attempt + j)) = [] ∧
          ∃ e, (beh (attempt + j)).err = some e ∧ isRetryable e = true) := by
  intro fuel
  induction fuel with
  | zero => intro attempt st _ _ _ _ h1; omega
  | succ f ih =>
    intro attempt st hg hs hf hsum _
    have hst1 : emitFrags (beh attempt).frags { st with calls := st.calls + 1 } =
        { full := String.join (nonemptyFrags (beh attempt)),
          sent := nonemptyFrags (beh attempt),
          gotAnyChunk := !(nonemptyFrags (beh attempt)).isEmpty,
          lastErr := st.lastErr, calls := st.calls + 1 } := by
      rw [emitFrags_eq]
      simp only [hs, hf, hg, nonemptyFrags, String.empty_append, List.nil_append,
        Bool.false_or]
    have hone : ∀ (L : Option GenError),
        (chatLoop beh attempt (f + 1) st =
          { full := String.join (nonemptyFrags (beh attempt)),
            sent := nonemptyFrags (beh attempt),
            gotAnyChunk := !(nonemptyFrags (beh attempt)).isEmpty,
            lastErr := L, calls := st.calls + 1 }) →
        (beh attempt).err = L →
        ∃ k, 1 ≤ k ∧ k ≤ f + 1 ∧
          (chatLoop beh attempt (f + 1) st).calls = st.calls + k ∧
          (chatLoop beh attempt (f + 1) st).sent =
            (List.range k).flatMap (fun j => nonemptyFrags (beh (attempt + j))) ∧
          (chatLoop beh attempt (f + 1) st).full =
            String.join ((List.range k).flatMap (fun j => nonemptyFrags (beh (attempt + j)))) ∧
          (chatLoop beh attempt (f + 1) st).gotAnyChunk =
            !((List.range k).flatMap (fun j => nonemptyFrags (beh (attempt + j)))).isEmpty ∧
          (chatLoop beh attempt (f + 1) st).lastErr = (beh (attempt + k - 1)).err ∧
          (∀ j, j + 1 < k → nonemptyFrags (beh (attempt + j)) = [] ∧
            ∃ e, (beh (attempt + j)).err = some e ∧ isRetryable e = true) := by
      intro L hloop hL
      refine ⟨1, le_refl 1, by omega, ?_, ?_, ?_, ?_, ?_, ?_⟩
      · rw [hloop]
      · simp [hloop, range_one_flatMap]
      · simp [hloop, range_one_flatMap]
      · simp [hloop, range_one_flatMap]
      · rw [hloop]
        have : attempt + 1 - 1 = attempt := by omega
        rw [this, hL]
      · intro j hj; omega
    cases he : (beh attempt).err with
    | none =>
        refine hone none ?_ he
        simp only [chatLoop, hst1, he]
    | some e =>
        cases hA : (nonemptyFrags (beh attempt)).isEmpty with
        | false =>
            refine hone (some e) ?_ he
            simp only [chatLoop, hst1, he, hA, Bool.not_false, if_true]
        | true =>
            have hAnil : nonemptyFrags (beh attempt) = [] := by
              simpa [List.isEmpty_iff] using hA
            cases hc : (decide (attempt < MAX_RETRIES - 1) && isRetryable e) with
            | false =>
                refine hone (some e) ?_ he
                simp only [chatLoop, hst1, he, hA, Bool.not_true, Bool.false_eq_true,
                  if_false, hc]
            | true =>
                have hlt : attempt < MAX_RETRIES - 1 := by
                  have := (Bool.and_eq_true _ _).mp hc
                  exact of_decide_eq_true this.1
                have hre : isRetryable e = true := ((Bool.and_eq_true _ _).mp hc).2
                have hrec : chatLoop beh attempt (f + 1) st =
                    chatLoop beh (attempt + 1) f
                      { full := String.join (nonemptyFrags (beh attempt)),
                        sent := nonemptyFrags (beh attempt),
                        gotAnyChunk := !(nonemptyFrags (beh attempt)).isEmpty,
                        lastErr := some e, calls := st.calls + 1 } := by
                  simp only [chatLoop, hst1, he, hA, Bool.not_true, Bool.false_eq_true,
                    if_false, hc, if_true]
                obtain ⟨k, hk1, hkf, hcalls, hsent, hfull, hgot, hlast, hretry⟩ :=
                  ih (attempt + 1)
                    { full := String.join (nonemptyFrags (beh attempt)),
                      sent := nonemptyFrags (beh attempt),
                      gotAnyChunk := !(nonemptyFrags (beh attempt)).isEmpty,
                      lastErr := some e, calls := st.calls + 1 }
                    (by simp [hA]) (by simp [hAnil]) (by simp [hAnil, String.join])
                    (by omega) (by simp only [MAX_RETRIES] at hsum hlt ⊢; omega)
                have hfun : (fun j => nonemptyFrags (beh (attempt + 1 + j))) =
                    (fun j => nonemptyFrags (beh (attempt + (j + 1)))) := by
                  funext j; congr 2; omega
                have hsplit : (List.range (k + 1)).flatMap
                    (fun j => nonemptyFrags (beh (attempt + j))) =
                    (List.range k).flatMap (fun j => nonemptyFrags (beh (attempt + 1 + j))) := by
                  rw [List.range_succ_eq_map]
                  simp only [List.flatMap_cons, Nat.add_zero, hAnil, List.nil_append]
                  rw [List.flatMap_map, hfun]
                refine ⟨k + 1, by omega, by omega, ?_, ?_, ?_, ?_, ?_, ?_⟩
                · rw [hrec, hcalls]
                  show st.calls + 1 + k = st.calls + (k + 1)
                  omega
                · rw [hrec, hsent, hsplit]
                · rw [hrec, hfull, hsplit]
                · rw [hrec, hgot, hsplit]
                · rw [hrec, hlast]; congr 2; omega
                · intro j hj
                  match j with
                  | 0 =>
                      refine ⟨by simpa using hAnil, e, by simpa using he, hre⟩
                  | j1 + 1 =>
                      have hsh : attempt + (j1 + 1) = attempt + 1 + j1 := by omega
                      have hp := hretry j1 (by omega)
                      refine ⟨by rw [hsh]; exact hp.1, ?_⟩
                      obtain ⟨e2, he2, hr2⟩ := hp.2
                      exact ⟨e2, by rw [hsh]; exact he2, hr2⟩

theorem flatMap_range_nil {α : Type} (f : Nat → List α) (k : Nat) :
    ((List.range k).flatMap f = []) ↔ (∀ i, i < k → f i = []) := by
  rw [List.flatMap_eq_nil_iff]
  constructor
  · intro h i hi; exact h i (List.mem_range.mpr hi)
  · intro h a ha; exact h a (List.mem_range.mp ha)

/-- The retry loop of a turn, characterized: at least one and at most
MAX_RETRIES calls; the chunks sent are exactly the non-empty fragments
of the calls made, in order; the accumulated text is their
concatenation; output-started tracking and last-error tracking are
faithful; and every call that was followed by another produced no
fragment and failed retryably. -/
theorem chatRun_char (env : TurnEnv) :
    1 ≤ (chatRun env).calls ∧ (chatRun env).calls ≤ MAX_RETRIES ∧
    (chatRun env).sent =
      (List.range (chatRun env).calls).flatMap (fun i => nonemptyFrags (env.primary i)) ∧
    (chatRun env).full = String.join (chatRun env).sent ∧
    (chatRun env).gotAnyChunk = !(chatRun env).sent.isEmpty ∧
    (chatRun env).lastErr = (env.primary ((chatRun env).calls - 1)).err ∧
    (∀ i, i + 1 < (chatRun env).calls → nonemptyFrags (env.primary i) = [] ∧
      ∃ e, (env.primary i).err = some e ∧ isRetryable e = true) := by
  obtain ⟨k, hk1, hkf, hcalls, hsent, hfull, hgot, hlast, hretry⟩ :=
    chatLoop_spec env.primary MAX_RETRIES 0 {} rfl rfl rfl rfl (by norm_num [MAX_RETRIES])
  have hck : (chatRun env).calls = k := by
    simpa [chatRun] using hcalls
  have hzero : ∀ j : Nat, 0 + j = j := by omega
  refine ⟨by omega, by omega, ?_, ?_, ?_, ?_, ?_⟩
  · rw [hck]
    simpa [chatRun, hzero] using hsent
  · have h1 : (chatRun env).full =
        String.join ((List.range k).flatMap (fun j => nonemptyFrags (env.primary (0 + j)))) := by
      simpa [chatRun] using hfull
    have h2 : (chatRun env).sent =
        (List.range k).flatMap (fun j => nonemptyFrags (env.primary (0 + j))) := by
      simpa [chatRun] using hsent
    rw [h1, h2]
  · have h1 : (chatRun env).gotAnyChunk =
        !((List.range k).flatMap (fun j => nonemptyFrags (env.primary (0 + j)))).isEmpty := by
      simpa [chatRun] using hgot
    have h2 : (chatRun env).sent =
        (List.range k).flatMap (fun j => nonemptyFrags (env.primary (0 + j))) := by
      simpa [chatRun] using hsent
    rw [h1, h2]
  · rw [hck]
    simpa [chatRun, hzero] using hlast
  · intro i hi
    have := hretry i (by omega)
    simpa [hzero] using this

/-- The fallback condition (a fallback stream is opened exactly when the
loop emitted nothing and its last call failed). -/
theorem chatCore_fellBack (env : TurnEnv) :
    (chatCore env).fellBack =
      (!(chatRun env).gotAnyChunk && (chatRun env).lastErr.isSome) := by
  unfold chatCore
  cases h : (!(chatRun env).gotAnyChunk && (chatRun env).lastErr.isSome) with
  | true => simp [h]
  | false => simp [h]

/-- A fallback failure implies the fallback was opened. -/
theorem chatCore_fbFailed_fellBack (env : TurnEnv) :
    (chatCore env).fbFailed = true → (chatCore env).fellBack = true := by
  unfold chatCore
  cases h : (!(chatRun env).gotAnyChunk && (chatRun env).lastErr.isSome) with
  | true => intro _; simp [h]
  | false => intro hcontra; simp [h] at hcontra

/-- The terminal text of a turn is the concatenation of exactly the
chunks sent (primary plus fallback), in order. -/
theorem chatCore_full_join (env : TurnEnv) :
    (chatCore env).full = String.join (chatCore env).chunks := by
  have h := chatRun_char env
  unfold chatCore
  cases hc : (!(chatRun env).gotAnyChunk && (chatRun env).lastErr.isSome) with
  | false => simpa [hc] using h.2.2.2.1
  | true =>
      simp only [hc, if_true, emitFragsFB_eq]
      rw [h.2.2.2.1, strJoin_append]

/-- Every auto-dispatch result is empty, one SPEC record, or one MATSPEC
record. -/
theorem autoDispatch_shape (env : TurnEnv) (focus : Bool) (trimmed lc user : String) :
    autoDispatch env focus trimmed lc user = [] ∨
    (∃ s, autoDispatch env focus trimmed lc user = [OutMsg.specMsg s]) ∨
    (∃ s, autoDispatch env focus trimmed lc user = [OutMsg.matspecMsg s]) := by
  unfold autoDispatch
  cases h1 : (focus && !isTagOnly trimmed) with
  | false => simp [h1]
  | true =>
      cases h2 : isMaterialIntent lc with
      | true => simp [h1, h2]
      | false =>
          cases h3 : isReplaceIntent lc with
          | true => simp [h1, h2, h3]
          | false => simp [h1, h2, h3]

/-- C1: for a conversational turn, the streamed call is retried, up to
the 4-attempt bound, only while zero fragments have been emitted; every
non-final call produced no fragment and failed retryably; the chunks the
client receives are exactly the generated non-empty fragments once each,
in order (no re-send, no duplication); a call that emitted a fragment is
always the last; and the one-shot fallback stream is opened exactly when
every call made failed before producing any fragment. -/
theorem c1_stream_retry_zero_fragment_rule (env : TurnEnv) :
    (1 ≤ (chatRun env).calls ∧ (chatRun env).calls ≤ MAX_RETRIES) ∧
    (∀ i, i + 1 < (chatRun env).calls →
      nonemptyFrags (env.primary i) = [] ∧
      ∃ e, (env.primary i).err = some e ∧ isRetryable e = true) ∧
    ((chatRun env).sent =
      (List.range (chatRun env).calls).flatMap (fun i => nonemptyFrags (env.primary i))) ∧
    (∀ i, i < (chatRun env).calls → nonemptyFrags (env.primary i) ≠ [] →
      (chatRun env).calls = i + 1) ∧
    ((chatCore env).fellBack = true ↔
      ∀ i, i < (chatRun env).calls →
        nonemptyFrags (env.primary i) = [] ∧ (env.primary i).err.isSome = true) := by
  obtain ⟨h1, h2, hsent, hfull, hgot, hlast, hretry⟩ := chatRun_char env
  refine ⟨⟨h1, h2⟩, hretry, hsent, ?_, ?_⟩
  · intro i hi hne
    by_contra hne2
    exact hne ((hretry i (by omega)).1)
  · rw [chatCore_fellBack]
    constructor
    · intro hb i hi
      have hands := (Bool.and_eq_true _ _).mp hb
      have hgfalse : (chatRun env).gotAnyChunk = false := by
        cases hx : (chatRun env).gotAnyChunk
        · rfl
        · rw [hx] at hands; simp at hands
      have hsnil : (chatRun env).sent = [] := by
        rw [hgot] at hgfalse
        simpa [List.isEmpty_iff] using hgfalse
      have hall : ∀ j, j < (chatRun env).calls → nonemptyFrags (env.primary j) = [] := by
        intro j hj
        have := hsent.symm.trans hsnil
        exact (flatMap_range_nil _ _).mp this j hj
      refine ⟨hall i hi, ?_⟩
      rcases Nat.lt_or_ge (i + 1) ((chatRun env).calls) with hlt | hge
      · obtain ⟨e, he, _⟩ := (hretry i hlt).2
        simp [he]
      · have hieq : i = (chatRun env).calls - 1 := by omega
        rw [hieq, ← hlast]
        exact hands.2
    · intro hall
      have hsnil : (chatRun env).sent = [] := by
        rw [hsent]
        exact (flatMap_range_nil _ _).mpr (fun i hi => (hall i hi).1)
      have hg : (chatRun env).gotAnyChunk = false := by
        rw [hgot, hsnil]; rfl
      have hl : (chatRun env).lastErr.isSome = true := by
        rw [hlast]
        exact (hall ((chatRun env).calls - 1) (by omega)).2
      rw [hg, hl]; rfl

/-- Environment in which every primary call fails retryably with no
output. -/
def envAllFail : TurnEnv := { primary := fun _ => { err := some { status := 503 } } }

theorem c1_stream_retry_witness : (chatCore envAllFail).fellBack = true :=
  (c1_stream_retry_zero_fragment_rule envAllFail).2.2.2.2.mpr (by decide)

/-- C8: while the busy flag is set, a newly arriving USER message
produces no reply, starts no generation, and leaves the busy flag and
the history unchanged. -/
theorem c8_busy_drops_turn (env : TurnEnv) (fse : Option String) (sess : SessionSt)
    (user : String) (hb : sess.busy = true) :
    (handleUserTurn env fse sess user).out = [] ∧
    (handleUserTurn env fse sess user).genStarted = false ∧
    (handleUserTurn env fse sess user).st.busy = true ∧
    (handleUserTurn env fse sess user).st.hist = sess.hist := by
  unfold handleUserTurn
  cases hsil : isSilentTag (jsTrim user) with
  | true => simp [hsil, hb]
  | false =>
      cases hfoc : isItemFocusTag (jsTrim user) with
      | true => simp [hsil, hfoc, hb]
      | false => simp [hsil, hfoc, hb]

theorem c8_busy_drops_witness :
    (handleUserTurn envAllFail none { busy := true } "hi").out = [] ∧
    (handleUserTurn envAllFail none { busy := true } "hi").genStarted = false ∧
    (handleUserTurn envAllFail none { busy := true } "hi").st.busy = true ∧
    (handleUserTurn envAllFail none { busy := true } "hi").st.hist = [] :=
  c8_busy_drops_turn envAllFail none { busy := true } "hi" rfl

/-- C10: every turn that passes the busy-admission check leaves the busy
flag false when its handling finishes, also on the exception path in
which the terminal send throws and the catch handler resets the flag. -/
theorem c10_busy_flag_always_reset (env : TurnEnv) (fse : Option String)
    (sess : SessionSt) (user : String) (hb : sess.busy = false) :
    (handleUserTurn env fse sess user).st.busy = false := by
  unfold handleUserTurn
  cases hsil : isSilentTag (jsTrim user) with
  | true => simp [hsil, hb]
  | false =>
      cases hfoc : isItemFocusTag (jsTrim user) with
      | true =>
          cases hfull : decide ((chatCore env).full = "") with
          | true => simp [hsil, hfoc, hb, of_decide_eq_true hfull]
          | false =>
              cases fse with
              | none => simp [hsil, hfoc, hb, of_decide_eq_false hfull]
              | some m => simp [hsil, hfoc, hb, of_decide_eq_false hfull]
      | false =>
          cases hfull : decide ((chatCore env).full = "") with
          | true => simp [hsil, hfoc, hb, of_decide_eq_true hfull]
          | false =>
              cases fse with
              | none => simp [hsil, hfoc, hb, of_decide_eq_false hfull]
              | some m => simp [hsil, hfoc, hb, of_decide_eq_false hfull]

/-- Environment whose only stream emits one fragment and then fails. -/
def envMidFail : TurnEnv :=
  { primary := fun _ => { frags := ["Hel"], err := some { status := 503 } } }

theorem c10_busy_flag_witness :
    (handleUserTurn envMidFail (some "send failed") {} "hi").st.busy = false :=
  c10_busy_flag_always_reset envMidFail (some "send failed") {} "hi" rfl

/-! ## C9: shape of the reply stream of a turn -/

def chunkPayload : OutMsg → Option String
  | .chunk s => some s
  | _ => none

/-- The first allowed outcome of the claim: zero or more chunks followed
by exactly one terminal reply whose payload is the concatenation of the
chunk fragments. -/
def isChunksThenFinalB (out : List OutMsg) : Bool :=
  match out.getLast? with
  | some (OutMsg.final f) =>
      (out.dropLast.all (fun m => (chunkPayload m).isSome)) &&
        f == String.join (out.dropLast.filterMap chunkPayload)
  | _ => false

/-- The second allowed outcome of the claim: a single error reply. -/
def isSingleErrorB : List OutMsg → Bool
  | [OutMsg.error _] => true
  | _ => false

/-- C9 (amended): for every admitted conversational turn the reply
stream is the chunk messages in generation order, then one
service-unavailable error exactly when the fallback stream was opened
and itself failed, then one terminal reply carrying the concatenation of
all chunk fragments — present precisely when that concatenation is
non-empty (a turn whose generation succeeds with empty output sends
nothing) — optionally followed by one auto-dispatched SPEC or MATSPEC
record. -/
theorem c9_user_turn_reply_shape (env : TurnEnv) (sess : SessionSt) (user : String)
    (hb : sess.busy = false) (hs : isSilentTag (jsTrim user) = false) :
    ∃ chunks extra,
      (handleUserTurn env none sess user).out =
        chunks.map OutMsg.chunk ++
        (if (chatCore env).fbFailed then [OutMsg.error "SERVICE_UNAVAILABLE"] else []) ++
        (if String.join chunks = "" then [] else [OutMsg.final (String.join chunks)]) ++
        extra ∧
      chunks = (chatCore env).chunks ∧
      ((chatCore env).fbFailed = true → (chatCore env).fellBack = true) ∧
      (extra = [] ∨ (∃ s, extra = [OutMsg.specMsg s]) ∨ (∃ s, extra = [OutMsg.matspecMsg s])) := by
  have hjoin := (chatCore_full_join env).symm
  refine ⟨(chatCore env).chunks, ?_⟩
  unfold handleUserTurn
  cases hfoc : isItemFocusTag (jsTrim user) with
  | true =>
      by_cases hfull : (chatCore env).full = ""
      · refine ⟨autoDispatch env true (jsTrim user) (jsLower user) user, ?_,
          rfl, chatCore_fbFailed_fellBack env, autoDispatch_shape env true _ _ _⟩
        simp [hs, hfoc, hb, hjoin, hfull]
      · refine ⟨autoDispatch env true (jsTrim user) (jsLower user) user, ?_,
          rfl, chatCore_fbFailed_fellBack env, autoDispatch_shape env true _ _ _⟩
        simp [hs, hfoc, hb, hjoin, hfull]
  | false =>
      by_cases hfull : (chatCore env).full = ""
      · refine ⟨autoDispatch env sess.focus (jsTrim user) (jsLower user) user, ?_,
          rfl, chatCore_fbFailed_fellBack env, autoDispatch_shape env sess.focus _ _ _⟩
        simp [hs, hfoc, hb, hjoin, hfull]
      · refine ⟨autoDispatch env sess.focus (jsTrim user) (jsLower user) user, ?_,
          rfl, chatCore_fbFailed_fellBack env, autoDispatch_shape env sess.focus _ _ _⟩
        simp [hs, hfoc, hb, hjoin, hfull]

/-- Environment whose only stream completes successfully without
emitting any fragment. -/
def envEmptySuccess : TurnEnv := { primary := fun _ => {} }

/-- C9 counterexample: when the stream succeeds with zero fragments, the
client receives no message at all — neither the chunks-then-final
outcome nor a single error reply, contradicting the claim that one of
those two outcomes always reaches the client. -/
theorem c9_empty_success_counterexample :
    (handleUserTurn envEmptySuccess none {} "hello").out = [] ∧
    isChunksThenFinalB (handleUserTurn envEmptySuccess none {} "hello").out = false ∧
    isSingleErrorB (handleUserTurn envEmptySuccess none {} "hello").out = false := by
  decide

/-- Environment that fails retryably once and then streams two
fragments. -/
def envRetryOk : TurnEnv :=
  { primary := fun i =>
      if i = 0 then { err := some { status := 503 } } else { frags := ["Hel", "lo"] } }

theorem c9_user_turn_reply_witness :
    ∃ chunks extra,
      (handleUserTurn envRetryOk none {} "hi").out =
        chunks.map OutMsg.chunk ++
        (if (chatCore envRetryOk).fbFailed then [OutMsg.error "SERVICE_UNAVAILABLE"] else []) ++
        (if String.join chunks = "" then [] else [OutMsg.final (String.join chunks)]) ++
        extra ∧
      chunks = (chatCore envRetryOk).chunks ∧
      ((chatCore envRetryOk).fbFailed = true → (chatCore envRetryOk).fellBack = true) ∧
      (extra = [] ∨ (∃ s, extra = [OutMsg.specMsg s]) ∨ (∃ s, extra = [OutMsg.matspecMsg s])) :=
  c9_user_turn_reply_shape envRetryOk {} "hi" rfl (by decide)

/-! ## C3: history invariants -/

/-- A history is well-paired when it is a sequence of user-then-model
pairs. -/
def isPaired : List HMsg → Bool
  | [] => true
  | ⟨Role.user, _⟩ :: ⟨Role.model, _⟩ :: rest => isPaired rest
  | _ => false

/-- clampHistory is exactly a drop of the oldest messages (FIFO). -/
theorem clampHistory_eq_drop (l : List HMsg) (mp : Nat) :
    clampHistory l mp = l.drop (l.length - mp * 2) := by
  induction l with
  | nil => rw [clampHistory]; simp
  | cons c rest ih =>
      rw [clampHistory]
      by_cases h : mp * 2 < (c :: rest).length
      · rw [dif_pos h, List.tail_cons, ih]
        have hlen : (c :: rest).length - mp * 2 = (rest.length - mp * 2) + 1 := by
          simp only [List.length_cons]
          simp only [List.length_cons] at h
          omega
        rw [hlen, List.drop_succ_cons]
      · rw [dif_neg h]
        have hlen : (c :: rest).length - mp * 2 = 0 := by
          simp only [List.length_cons] at h ⊢
          omega
        rw [hlen, List.drop_zero]

theorem isPaired_even : ∀ (l : List HMsg), isPaired l = true → l.length % 2 = 0
  | [], _ => rfl
  | ⟨Role.user, _⟩ :: [], h => (Bool.false_ne_true h).elim
  | ⟨Role.model, _⟩ :: [], h => (Bool.false_ne_true h).elim
  | ⟨Role.user, _⟩ :: ⟨Role.model, _⟩ :: rest, h => by
      have := isPaired_even rest h
      simp only [List.length_cons]
      omega
  | ⟨Role.user, _⟩ :: ⟨Role.user, _⟩ :: _, h => (Bool.false_ne_true h).elim
  | ⟨Role.model, _⟩ :: _ :: _, h => (Bool.false_ne_true h).elim

theorem isPaired_drop_two : ∀ (l : List HMsg), isPaired l = true →
    isPaired (l.drop 2) = true
  | [], _ => rfl
  | ⟨Role.user, _⟩ :: [], h => (Bool.false_ne_true h).elim
  | ⟨Role.model, _⟩ :: [], h => (Bool.false_ne_true h).elim
  | ⟨Role.user, _⟩ :: ⟨Role.model, _⟩ :: _, h => h
  | ⟨Role.user, _⟩ :: ⟨Role.user, _⟩ :: _, h => (Bool.false_ne_true h).elim
  | ⟨Role.model, _⟩ :: _ :: _, h => (Bool.false_ne_true h).elim

theorem isPaired_append_pair : ∀ (l : List HMsg) (u m : String), isPaired l = true →
    isPaired (l ++ [⟨Role.user, u⟩, ⟨Role.model, m⟩]) = true
  | [], _, _, _ => rfl
  | ⟨Role.user, _⟩ :: [], _, _, h => (Bool.false_ne_true h).elim
  | ⟨Role.model, _⟩ :: [], _, _, h => (Bool.false_ne_true h).elim
  | ⟨Role.user, _⟩ :: ⟨Role.model, _⟩ :: rest, u, m, h => by
      have := isPaired_append_pair rest u m h
      simpa [isPaired] using this
  | ⟨Role.user, _⟩ :: ⟨Role.user, _⟩ :: _, _, _, h => (Bool.false_ne_true h).elim
  | ⟨Role.model, _⟩ :: _ :: _, _, _, h => (Bool.false_ne_true h).elim

/-- One turn preserves the history bound and pairing. -/
theorem histStep_inv (h : List HMsg) (u f : String)
    (hlen : h.length ≤ 8) (hp : isPaired h = true) :
    (histStep h u f).length ≤ 8 ∧ isPaired (histStep h u f) = true := by
  unfold histStep
  by_cases hf : f = ""
  · simp [hf, hlen, hp]
  · rw [if_neg hf, clampHistory_eq_drop]
    have hL : (h ++ [(⟨Role.user, u⟩ : HMsg), ⟨Role.model, f⟩]).length = h.length + 2 := by
      simp
    have heven := isPaired_even h hp
    have hpair := isPaired_append_pair h u f hp
    constructor
    · rw [List.length_drop, hL]; omega
    · by_cases h6 : h.length ≤ 6
      · have hzero : (h ++ [(⟨Role.user, u⟩ : HMsg), ⟨Role.model, f⟩]).length - 4 * 2 = 0 := by
          rw [hL]; omega
        rw [hzero, List.drop_zero]; exact hpair
      · have h8 : h.length = 8 := by omega
        have htwo : (h ++ [(⟨Role.user, u⟩ : HMsg), ⟨Role.model, f⟩]).length - 4 * 2 = 2 := by
          rw [hL, h8]
        rw [htwo]
        exact isPaired_drop_two _ hpair

/-- C3: the stored history never exceeds 2 x 4 messages and is always a
sequence of user/model pairs; eviction is a FIFO drop of the oldest
messages; a turn with empty reply text changes the history not at all;
and the handler updates the history exactly by this rule. -/
theorem c3_history_invariants :
    (∀ (l : List HMsg) (mp : Nat), clampHistory l mp = l.drop (l.length - mp * 2)) ∧
    (∀ ts : List (String × String),
      (runTurns ts).length ≤ 8 ∧ isPaired (runTurns ts) = true) ∧
    (∀ (h : List HMsg) (u : String), histStep h u "" = h) ∧
    (∀ (env : TurnEnv) (fse : Option String) (sess : SessionSt) (user : String),
      sess.busy = false → isSilentTag (jsTrim user) = false →
      (handleUserTurn env fse sess user).st.hist =
        histStep sess.hist user (chatCore env).full) := by
  refine ⟨clampHistory_eq_drop, ?_, ?_, ?_⟩
  · intro ts
    suffices hgen : ∀ h : List HMsg, h.length ≤ 8 → isPaired h = true →
        (ts.foldl (fun h t => histStep h t.1 t.2) h).length ≤ 8 ∧
        isPaired (ts.foldl (fun h t => histStep h t.1 t.2) h) = true by
      exact hgen [] (by simp) rfl
    induction ts with
    | nil => intro h h1 h2; exact ⟨h1, h2⟩
    | cons t rest ih =>
        intro h h1 h2
        have hstep := histStep_inv h t.1 t.2 h1 h2
        simpa [List.foldl_cons] using ih _ hstep.1 hstep.2
  · intro h u; simp [histStep]
  · intro env fse sess user hb hs
    unfold handleUserTurn histStep
    cases hfoc : isItemFocusTag (jsTrim user) with
    | true =>
        by_cases hfull : (chatCore env).full = ""
        · simp [hs, hfoc, hb, hfull]
        · cases fse with
          | none => simp [hs, hfoc, hb, hfull]
          | some m => simp [hs, hfoc, hb, hfull]
    | false =>
        by_cases hfull : (chatCore env).full = ""
        · simp [hs, hfoc, hb, hfull]
        · cases fse with
          | none => simp [hs, hfoc, hb, hfull]
          | some m => simp [hs, hfoc, hb, hfull]

theorem c3_history_witness :
    (handleUserTurn envRetryOk none {} "hi").st.hist =
      histStep [] "hi" (chatCore envRetryOk).full :=
  (c3_history_invariants.2.2.2) envRetryOk none {} "hi" rfl (by decide)

/-! ## C2, C4, C5, C6, C7 -/

/-- C2: the suggestion gate on the three reference inputs — a bare
budget with no category and no intent keyword never suggests; a category
plus budget constraint suggests with the category and budget extracted;
and the informational-query veto forces suggest off even when the
backend asserted it. -/
theorem c2_suggest_gate_examples :
    (normalizeSpec "my budget is 900" {}).suggest = false ∧
    ((normalizeSpec "sofa under 900" {}).suggest = true ∧
     (normalizeSpec "sofa under 900" {}).category = "sofa" ∧
     (normalizeSpec "sofa under 900" {}).budget_max = JSNum.fin 900) ∧
    (normalizeSpec "tell me about your return policy for sofas"
      { suggest := some true }).suggest = false := by
  with_unfolding_all decide

/-- C4: the budget extractor on the four reference inputs; range
phrasing takes strict priority (a text whose normalized form matches a
range pattern resolves through that pattern, never falling through to a
min-only, max-only or bare-amount result); and none is returned when no
pattern matches. -/
theorem c4_budget_extractor :
    extractBudget "between 500 and 800" = some ⟨500, 800⟩ ∧
    extractBudget "under 900" = some ⟨0, 900⟩ ∧
    extractBudget "at least 1200" = some ⟨1200, 0⟩ ∧
    extractBudget "budget is 1.2k" = some ⟨0, 1200⟩ ∧
    (∀ text, (reSearch rangeRE1 (budgetNormalize text)).isSome = true →
      extractBudget text = (reSearch rangeRE1 (budgetNormalize text)).map pairResult) ∧
    (∀ text, reSearch rangeRE1 (budgetNormalize text) = none →
      (reSearch rangeRE2 (budgetNormalize text)).isSome = true →
      extractBudget text = (reSearch rangeRE2 (budgetNormalize text)).map pairResult) ∧
    (∀ text, reSearch rangeRE1 (budgetNormalize text) = none →
      reSearch rangeRE2 (budgetNormalize text) = none →
      reSearch minRE (budgetNormalize text) = none →
      reSearch maxRE (budgetNormalize text) = none →
      reSearch revMinRE (budgetNormalize text) = none →
      reSearch revMaxRE (budgetNormalize text) = none →
      reSearch bareMoneyRE (budgetNormalize text) = none →
      reSearch aroundRE (budgetNormalize text) = none →
      extractBudget text = none) := by
  refine ⟨by with_unfolding_all decide, by with_unfolding_all decide,
    by with_unfolding_all decide, by with_unfolding_all decide, ?_, ?_, ?_⟩
  · intro text h
    unfold extractBudget
    cases hr : reSearch rangeRE1 (budgetNormalize text) with
    | none => rw [hr] at h; simp at h
    | some r => simp [hr]
  · intro text h1 h2
    unfold extractBudget
    cases hr : reSearch rangeRE2 (budgetNormalize text) with
    | none => rw [hr] at h2; simp at h2
    | some r => simp [h1, hr]
  · intro text h1 h2 h3 h4 h5 h6 h7 h8
    unfold extractBudget
    simp [h1, h2, h3, h4, h5, h6, h7, h8]

theorem c4_budget_witness : extractBudget "from 5 to 9" = some ⟨5, 9⟩ := by
  have h := c4_budget_extractor.2.2.2.2.1 "from 5 to 9" (by decide)
  exact h.trans (by with_unfolding_all decide)

/-- C5 (code evaluation at the failing input): the SPEC builder applies
sanitizeField to the already |-joined style array, so with two style
tags the emitted style value is boho/modern — the join separators
themselves are escaped — whereas per-tag sanitization before joining
(as the claim describes, and as the MATSPEC builder does) would emit
boho|modern. -/
theorem c5_style_join_sanitized :
    makeSpecFlatPure "hello" { style_tags := .arr ["boho", "modern"] } =
      "suggest=0;category=;style=boho/modern;budget_min=0;budget_max=0;max_len=0;max_w=0;max_h=0;choice_id=;choice_name=" ∧
    String.intercalate "|" (["boho", "modern"].map sanitizeField) = "boho|modern" ∧
    ("boho/modern" : String) ≠ "boho|modern" := by
  refine ⟨by with_unfolding_all decide, by decide, by decide⟩

/-- C6 counterexample: the claim that parseAmount always returns a
finite non-negative number fails — the string "-5" parses to the
negative value -5, and a NaN number input is returned as NaN. -/
theorem c6_negative_counterexample :
    toNumberLoose (JSVal.str "-5") = JSNum.fin (-5) ∧ ¬ (0 ≤ (-5 : ℚ)) ∧
    toNumberLoose (JSVal.num JSNum.nan) = JSNum.nan := by
  with_unfolding_all decide

/-- C6 (amended): parseAmount is total and never throws; a number input
is returned unchanged (so may be negative or non-finite), any other
non-string input yields 0, every string input yields a finite value —
0 when unparseable — and a trailing k suffix multiplies the parsed
value by 1000. -/
theorem c6_parse_amount_total :
    (∀ n, toNumberLoose (JSVal.num n) = n) ∧
    toNumberLoose JSVal.other = JSNum.fin 0 ∧
    (∀ s, ∃ q : ℚ, toNumberLoose (JSVal.str s) = JSNum.fin q) ∧
    (∀ s, endsWithChar (cleanNumText s) 'k' = true →
      toNumberLoose (JSVal.str s) =
        JSNum.fin (((parseFloatQ (cleanNumText s)).getD 0) * 1000)) ∧
    (∀ s, parseFloatQ (cleanNumText s) = none →
      toNumberLoose (JSVal.str s) = JSNum.fin 0) := by
  refine ⟨fun n => rfl, rfl, ?_, ?_, ?_⟩
  · intro s
    cases h : endsWithChar (cleanNumText s) 'k' with
    | true =>
        exact ⟨((parseFloatQ (cleanNumText s)).map (fun q => q * 1000)).getD 0,
          by simp [toNumberLoose, h]⟩
    | false =>
        exact ⟨(parseFloatQ (cleanNumText s)).getD 0, by simp [toNumberLoose, h]⟩
  · intro s h
    simp only [toNumberLoose, h, if_true]
    cases hp : parseFloatQ (cleanNumText s) with
    | none => simp [hp]
    | some q => simp [hp]
  · intro s h
    cases he : endsWithChar (cleanNumText s) 'k' with
    | true => simp [toNumberLoose, he, h]
    | false => simp [toNumberLoose, he, h]

theorem c6_parse_amount_witness : toNumberLoose (JSVal.str "2k") = JSNum.fin 2000 := by
  have h := c6_parse_amount_total.2.2.2.1 "2k" (by decide)
  exact h.trans (by with_unfolding_all decide)

/-- C7: in every material intent, apply is the OR of all signals — true
exactly when the backend asserted it, or the text matches the broad
material/finish/color keyword pattern, or any of the resolved slot,
color or finish (backend value or synonym-table match) is non-empty. -/
theorem c7_material_apply_or (user : String) (spec : RawMatSpec) :
    ((normalizeMat user spec).apply = true ↔
      (spec.apply = some true ∨
       reTest materialHintsRE (jsLower (stripLeadingTag user)) = true ∨
       (normalizeMat user spec).slot ≠ "" ∨
       (normalizeMat user spec).color ≠ "" ∨
       (normalizeMat user spec).finish ≠ "")) := by
  cases ha : spec.apply with
  | none =>
      simp [normalizeMat, ha, Bool.or_eq_true, ne_eq, decide_eq_true_eq]
      tauto
  | some b =>
      cases b with
      | true => simp [normalizeMat, ha]
      | false =>
          simp [normalizeMat, ha, Bool.or_eq_true, ne_eq, decide_eq_true_eq]
          tauto

end Saleverse
